import Mathlib

/-
A shallow embedding of `src/tonlibjson-jsonrpc/src/main.rs`: the JSON-RPC
gateway's envelope protocol, parameter validation, stream aggregation and
identifier codec.  Pure Rust functions become Lean functions; asynchronous
backend calls (the `tonlibjson_tokio::AsyncClient` collaborator, which lives
outside this crate) are abstracted as a record of functions; lazily pulled
streams become lists consumed left to right, with the pull-by-pull fusion of
`take_while`/`take` made explicit where laziness is observable; a `panic`
(from `unwrap`) is a distinguished outcome, separate from the `Err` channel
that the dispatcher turns into an `ok:false` envelope.
-/

set_option linter.all false

namespace TonRpc

/-- A JSON value, standing for `serde_json::Value`.  Only the shapes this
gateway manipulates are needed; numbers are integers here (no float crosses
the paths under study). -/
inductive Value where
  | null
  | bool (b : Bool)
  | num (n : Int)
  | str (s : String)
  | arr (xs : List Value)
  | obj (fields : List (String × Value))

/-! ## Signed 64-bit integer parsing (`str::parse::<i64>`)

`main.rs` parses the `shard` string (lines 148, 163, 173) and the `to_lt`
and per-transaction `lt` strings (lines 215, 227) with Rust's
`str::parse::<i64>`.  The grammar is an optional sign followed by one or
more ASCII digits, with the value required to fit in `i64`; the error
messages are the `ParseIntError` display strings. -/

def digitVal (c : Char) : Option Nat :=
  if '0' ≤ c ∧ c ≤ '9' then some (c.toNat - '0'.toNat) else none

def parseDigitsAux (acc : Nat) : List Char → Option Nat
  | [] => some acc
  | c :: cs =>
    match digitVal c with
    | some d => parseDigitsAux (acc * 10 + d) cs
    | none => none

def i64Max : Int := 9223372036854775807

def i64Min : Int := -9223372036854775808

def parse_i64 (s : String) : Except String Int :=
  match s.toList with
  | [] => Except.error "cannot parse integer from empty string"
  | cs =>
    let signed : Int × List Char :=
      match cs with
      | '+' :: rest => (1, rest)
      | '-' :: rest => (-1, rest)
      | _ => (1, cs)
    match signed.2 with
    | [] => Except.error "invalid digit found in string"
    | digits =>
      match parseDigitsAux 0 digits with
      | none => Except.error "invalid digit found in string"
      | some n =>
        let v : Int := signed.1 * n
        if v > i64Max then Except.error "number too large to fit in target type"
        else if v < i64Min then Except.error "number too small to fit in target type"
        else Except.ok v

/-! ## Identifier codec (`base64_to_hex`, main.rs lines 298-303)

`base64::decode` (the `base64` crate's standard alphabet, `=`-padded
canonical chunks, unpadded final chunks accepted, trailing bits required to
be zero) and `hex::encode` (two lowercase hex digits per byte).  Bytes are
`Nat`s below 256. -/

def b64Chars : List Char :=
  "ABCDEFGHIJKLMNOPQRSTUVWXYZabcdefghijklmnopqrstuvwxyz0123456789+/".toList

def sextetToChar (n : Nat) : Char := b64Chars.getD n '='

def charToSextet (c : Char) : Option Nat := b64Chars.findIdx? (fun x => x == c)

def base64Encode : List Nat → List Char
  | [] => []
  | [b0] => [sextetToChar (b0 / 4), sextetToChar (b0 % 4 * 16), '=', '=']
  | [b0, b1] => [sextetToChar (b0 / 4), sextetToChar (b0 % 4 * 16 + b1 / 16),
      sextetToChar (b1 % 16 * 4), '=']
  | b0 :: b1 :: b2 :: rest =>
    sextetToChar (b0 / 4) :: sextetToChar (b0 % 4 * 16 + b1 / 16) ::
      sextetToChar (b1 % 16 * 4 + b2 / 64) :: sextetToChar (b2 % 64) :: base64Encode rest

def base64Decode : List Char → Option (List Nat)
  | [] => some []
  | [_] => none
  | [c0, c1] =>
    match charToSextet c0, charToSextet c1 with
    | some s0, some s1 =>
      if s1 % 16 = 0 then some [s0 * 4 + s1 / 16] else none
    | _, _ => none
  | [c0, c1, c2] =>
    match charToSextet c0, charToSextet c1, charToSextet c2 with
    | some s0, some s1, some s2 =>
      if s2 % 4 = 0 then some [s0 * 4 + s1 / 16, s1 % 16 * 16 + s2 / 4] else none
    | _, _, _ => none
  | c0 :: c1 :: c2 :: c3 :: rest =>
    match charToSextet c0, charToSextet c1 with
    | some s0, some s1 =>
      if c2 = '=' then
        if c3 = '=' ∧ rest = [] then
          if s1 % 16 = 0 then some [s0 * 4 + s1 / 16] else none
        else none
      else
        match charToSextet c2 with
        | some s2 =>
          if c3 = '=' then
            if rest = [] then
              if s2 % 4 = 0 then some [s0 * 4 + s1 / 16, s1 % 16 * 16 + s2 / 4] else none
            else none
          else
            match charToSextet c3 with
            | some s3 =>
              match base64Decode rest with
              | some tail =>
                some ((s0 * 4 + s1 / 16) :: (s1 % 16 * 16 + s2 / 4) :: (s2 % 4 * 64 + s3) :: tail)
              | none => none
            | none => none
        | none => none
    | _, _ => none

def hexChars : List Char := "0123456789abcdef".toList

def hexEncode : List Nat → List Char
  | [] => []
  | b :: rest => hexChars.getD (b / 16) '0' :: hexChars.getD (b % 16) '0' :: hexEncode rest

/-- `base64_to_hex` (main.rs lines 298-303): decode base64, re-encode the
bytes as lowercase hex.  The Rust function returns `anyhow::Result`; `none`
stands for the error case. -/
def base64_to_hex (b : String) : Option String :=
  (base64Decode b.toList).map (fun bytes => String.mk (hexEncode bytes))

/-! ## Request parameter records (main.rs lines 10-63)

Rust's `u64`/`u16`/`u8` become `Nat`, `i64` becomes `Int` (serde already
guarantees range on the wire; no arithmetic overflows these widths on the
paths under study), and optional fields keep their `Option`. -/

structure LookupBlockParams where
  workchain : Int
  shard : String
  seqno : Option Nat
  lt : Option Int
  unixtime : Option Nat
  deriving DecidableEq

structure ShardsParams where
  seqno : Nat
  deriving DecidableEq

structure BlockHeaderParams where
  workchain : Int
  shard : String
  seqno : Nat
  root_hash : Option String
  file_hash : Option String
  deriving DecidableEq

structure BlockTransactionsParams where
  workchain : Int
  shard : String
  seqno : Nat
  root_hash : Option String
  file_hash : Option String
  after_lt : Option Int
  after_hash : Option String
  count : Option Nat
  deriving DecidableEq

structure AddressParams where
  address : String
  deriving DecidableEq

structure TransactionsParams where
  address : String
  limit : Option Nat
  lt : Option String
  hash : Option String
  to_lt : Option String
  archival : Option Bool
  deriving DecidableEq

structure SendBocParams where
  boc : String
  deriving DecidableEq

/-- The tagged method set (main.rs lines 65-86). -/
inductive Method where
  | LookupBlock (params : LookupBlockParams)
  | Shards (params : ShardsParams)
  | BlockHeader (params : BlockHeaderParams)
  | BlockTransactions (params : BlockTransactionsParams)
  | AddressInformation (params : AddressParams)
  | ExtendedAddressInformation (params : AddressParams)
  | Transactions (params : TransactionsParams)
  | SendBoc (params : SendBocParams)
  | MasterchainInfo

/-- A decoded request envelope (main.rs lines 88-94). -/
structure JsonRequest where
  jsonrpc : String
  id : Nat
  method : Method

structure JsonError where
  code : Int
  message : String

/-- The response envelope (main.rs lines 102-111). -/
structure JsonResponse where
  ok : Bool
  error : Option JsonError
  result : Option Value
  jsonrpc : String
  id : Nat

/-- `JsonResponse::new` (main.rs lines 114-122). -/
def JsonResponse.new (id : Nat) (result : Value) : JsonResponse :=
  { ok := true, result := some result, error := none, jsonrpc := "2.0", id := id }

/-- `JsonResponse::error` (main.rs lines 124-132); named `mk_error` here
because the structure's `error` field already occupies that name. -/
def JsonResponse.mk_error (id : Nat) (e : String) : JsonResponse :=
  { ok := false, result := none, error := some { code := -32603, message := e },
    jsonrpc := "2.0", id := id }

/-! ## Backend data records

Modelled from the spec: the record shapes `ShortTxId`, `RawTransaction`,
`InternalTransactionId` and `BlockIdExt` live in the repository's
`tonlibjson_tokio` crate, which is not under `src/`; their fields follow
spec section 3 (Short Transaction Id, Raw Transaction, Transaction Cursor,
Block Identifier). -/

structure ShortTxId where
  account : String
  hash : String
  lt : String
  mode : Nat
  deriving DecidableEq

structure InternalTransactionId where
  lt : String
  hash : String
  deriving DecidableEq

structure RawTransaction where
  transaction_id : InternalTransactionId
  deriving DecidableEq

structure BlockIdExt where
  workchain : Int
  shard : Int
  seqno : Nat
  root_hash : String
  file_hash : String
  deriving DecidableEq

/-- The outcome of one handler: Rust's `RpcResponse<Value>` (`Ok`/`Err`)
plus a distinguished `panic` for an `unwrap` failure, which escapes the
`Result` channel entirely. -/
inductive Outcome where
  | ok (v : Value)
  | err (e : String)
  | panic

def Outcome.ofExcept : Except String Value → Outcome
  | Except.ok v => Outcome.ok v
  | Except.error e => Outcome.err e

/-- The backend collaborator (`tonlibjson_tokio::AsyncClient`), abstracted:
each async call becomes a function; stream-producing calls yield the list of
records in the order the backend would produce them; JSON-serializable
payloads are abstracted as their serialized `Value`. -/
structure AsyncClient where
  get_masterchain_info : Except String Value
  look_up_block_by_seqno : Int → Int → Nat → Except String Value
  look_up_block_by_lt : Int → Int → Int → Except String Value
  get_shards : Nat → Except String Value
  get_block_header : Int → Int → Nat → Except String Value
  get_tx_stream : BlockIdExt → List ShortTxId
  raw_get_account_state : String → Except String Value
  get_account_state : String → Except String Value
  get_account_tx_stream : String → List RawTransaction
  get_account_tx_stream_from : String → InternalTransactionId → List RawTransaction
  send_message : String → Except String Value

/-! ## Serde serializers for the handler results

Modelled from the spec: serde's `Serialize`/`Deserialize` for the
`tonlibjson_tokio` records (not under `src/`); wire shapes follow spec
section 3 (shard is a decimal string on the wire). -/

def getField (fields : List (String × Value)) (k : String) : Option Value :=
  (fields.find? (fun p => p.1 == k)).map (fun p => p.2)

/-- Modelled from the spec: `serde_json::from_value::<BlockIdExt>`
(main.rs line 178); decodes the block-identifier object produced by a
lookup call. -/
def from_value_block_id_ext (v : Value) : Except String BlockIdExt :=
  match v with
  | Value.obj fields =>
    match getField fields "workchain", getField fields "shard", getField fields "seqno",
        getField fields "root_hash", getField fields "file_hash" with
    | some (Value.num wc), some (Value.str sh), some (Value.num sq),
        some (Value.str rh), some (Value.str fh) =>
      match parse_i64 sh with
      | Except.ok shard =>
        if sq ≥ 0 then
          Except.ok { workchain := wc, shard := shard, seqno := sq.toNat,
                      root_hash := rh, file_hash := fh }
        else Except.error "invalid value: integer"
      | Except.error e => Except.error e
    | _, _, _, _, _ => Except.error "missing field"
  | _ => Except.error "invalid type: expected a map"

def BlockIdExt.toValue (b : BlockIdExt) : Value :=
  Value.obj [("workchain", Value.num b.workchain), ("shard", Value.str (toString b.shard)),
    ("seqno", Value.num (b.seqno : Int)), ("root_hash", Value.str b.root_hash),
    ("file_hash", Value.str b.file_hash)]

def ShortTxId.toValue (t : ShortTxId) : Value :=
  Value.obj [("account", Value.str t.account), ("hash", Value.str t.hash),
    ("lt", Value.str t.lt), ("mode", Value.num (t.mode : Int))]

def RawTransaction.toValue (t : RawTransaction) : Value :=
  Value.obj [("transaction_id", Value.obj [("lt", Value.str t.transaction_id.lt),
    ("hash", Value.str t.transaction_id.hash)])]

/-! ## The `RpcServer` handlers (main.rs lines 141-246) -/

/-- `master_chain_info` (lines 142-144); the dispatcher's
`serde_json::to_value` is the identity on the abstracted payload. -/
def master_chain_info (c : AsyncClient) : Outcome :=
  Outcome.ofExcept c.get_masterchain_info

/-- `lookup_block` (lines 146-156): parse the shard string, then match on
`(seqno, lt, unixtime)` with the positivity guards; a failed guard falls
through to the catch-all arm exactly as in Rust. -/
def lookup_block (c : AsyncClient) (p : LookupBlockParams) : Outcome :=
  match parse_i64 p.shard with
  | Except.error e => Outcome.err e
  | Except.ok shard =>
    match p.seqno, p.lt, p.unixtime with
    | some seqno, none, none =>
      if seqno > 0 then Outcome.ofExcept (c.look_up_block_by_seqno p.workchain shard seqno)
      else Outcome.err "seqno or lt or unixtime must be provided"
    | none, some lt, none =>
      if lt > 0 then Outcome.ofExcept (c.look_up_block_by_lt p.workchain shard lt)
      else Outcome.err "seqno or lt or unixtime must be provided"
    | none, none, some _ => Outcome.err "unixtime is not supported"
    | _, _, _ => Outcome.err "seqno or lt or unixtime must be provided"

/-- `shards` (lines 158-160). -/
def shards (c : AsyncClient) (p : ShardsParams) : Outcome :=
  Outcome.ofExcept (c.get_shards p.seqno)

/-- `get_block_header` (lines 162-170). -/
def get_block_header (c : AsyncClient) (p : BlockHeaderParams) : Outcome :=
  match parse_i64 p.shard with
  | Except.error e => Outcome.err e
  | Except.ok shard => Outcome.ofExcept (c.get_block_header p.workchain shard p.seqno)

/-- The per-item transform of `get_block_transactions` (lines 181-192):
rewrite each record's `account` through `base64_to_hex(..).unwrap()`,
prefixing the block's workchain; `none` is the panic of the `unwrap` on the
first invalid account, at which point no later item is processed. -/
def map_accounts (workchain : Int) : List ShortTxId → Option (List ShortTxId)
  | [] => some []
  | tx :: rest =>
    match base64_to_hex tx.account with
    | none => none
    | some hex =>
      match map_accounts workchain rest with
      | none => none
      | some out =>
        some ({ account := toString workchain ++ ":" ++ hex, hash := tx.hash,
                lt := tx.lt, mode := tx.mode } :: out)

/-- `get_block_transactions` (lines 172-202): parse the shard, default
`count` to 200, look the block up by seqno, decode it, map the block's
transaction stream, and build the `json!` result object.  Note that `count`
is only echoed as `req_count`; no `take` is applied to the stream. -/
def get_block_transactions (c : AsyncClient) (p : BlockTransactionsParams) : Outcome :=
  match parse_i64 p.shard with
  | Except.error e => Outcome.err e
  | Except.ok shard =>
    let count := p.count.getD 200
    match c.look_up_block_by_seqno p.workchain shard p.seqno with
    | Except.error e => Outcome.err e
    | Except.ok block_json =>
      match from_value_block_id_ext block_json with
      | Except.error e => Outcome.err e
      | Except.ok block =>
        match map_accounts block.workchain (c.get_tx_stream block) with
        | none => Outcome.panic
        | some tx =>
          Outcome.ok (Value.obj [("@type", Value.str "blocks.transactions"),
            ("id", block.toValue), ("incomplete", Value.bool false),
            ("req_count", Value.num (count : Int)),
            ("transactions", Value.arr (tx.map ShortTxId.toValue))])

/-- `get_address_information` (lines 204-206). -/
def get_address_information (c : AsyncClient) (p : AddressParams) : Outcome :=
  Outcome.ofExcept (c.raw_get_account_state p.address)

/-- `get_extended_address_information` (lines 208-210). -/
def get_extended_address_information (c : AsyncClient) (p : AddressParams) : Outcome :=
  Outcome.ofExcept (c.get_account_state p.address)

/-- The stream selection of `get_transactions` (lines 219-224): the
cursor-started stream exactly when both `lt` and `hash` are present,
otherwise the from-latest stream. -/
def selected_stream (c : AsyncClient) (p : TransactionsParams) : List RawTransaction :=
  match p.lt, p.hash with
  | some lt, some hash =>
    c.get_account_tx_stream_from p.address { lt := lt, hash := hash }
  | _, _ => c.get_account_tx_stream p.address

/-- The fused `take_while(..).take(count)` pipeline of `get_transactions`
(lines 225-235), pull by pull: `take` with no budget left pulls nothing;
otherwise `take_while` pulls the next item and evaluates
`lt.parse::<i64>().unwrap() > to_lt`, whose `unwrap` panics (`none`) on an
unparsable `lt`; a failed condition ends the stream without pulling
further. -/
def take_while_take (to_lt : Int) : Nat → List RawTransaction → Option (List RawTransaction)
  | 0, _ => some []
  | _ + 1, [] => some []
  | n + 1, tx :: rest =>
    match parse_i64 tx.transaction_id.lt with
    | Except.error _ => none
    | Except.ok v =>
      if v > to_lt then (take_while_take to_lt n rest).map (fun out => tx :: out)
      else some []

/-- The transaction list built by `get_transactions` (lines 212-235):
`limit` defaults to 10; `to_lt` is parsed with `.ok()`, an unparsable value
silently becoming absent; the stop condition applies only when `to_lt` is
present.  `none` is a panic inside the pipeline. -/
def get_transactions_list (c : AsyncClient) (p : TransactionsParams) :
    Option (List RawTransaction) :=
  let count := p.limit.getD 10
  let max_lt := p.to_lt.bind (fun x => (parse_i64 x).toOption)
  match max_lt with
  | some to_lt => take_while_take to_lt count (selected_stream c p)
  | none => some ((selected_stream c p).take count)

/-- `get_transactions` (lines 212-238): the list, serialized by
`serde_json::to_value` (line 237). -/
def get_transactions (c : AsyncClient) (p : TransactionsParams) : Outcome :=
  match get_transactions_list c p with
  | none => Outcome.panic
  | some txs => Outcome.ok (Value.arr (txs.map RawTransaction.toValue))

/-- `send_boc` (lines 240-245): decode the base64 body, re-encode it, and
forward it. -/
def send_boc (c : AsyncClient) (p : SendBocParams) : Outcome :=
  match base64Decode p.boc.toList with
  | none => Outcome.err "invalid base64"
  | some boc => Outcome.ofExcept (c.send_message (String.mk (base64Encode boc)))

/-- The `let result = match payload.method ...` of `dispatch_method`
(main.rs lines 251-261): route the decoded method to its handler. -/
def dispatch_result (c : AsyncClient) : Method → Outcome
  | Method.MasterchainInfo => master_chain_info c
  | Method.LookupBlock p => lookup_block c p
  | Method.Shards p => shards c p
  | Method.BlockHeader p => get_block_header c p
  | Method.BlockTransactions p => get_block_transactions c p
  | Method.AddressInformation p => get_address_information c p
  | Method.ExtendedAddressInformation p => get_extended_address_information c p
  | Method.Transactions p => get_transactions c p
  | Method.SendBoc p => send_boc c p

/-- `dispatch_method` (lines 248-269): wrap the routed handler's `Result`
in the response envelope — `Ok` as `JsonResponse::new`, `Err` as
`JsonResponse::error`.  A panic (`none`) escapes without producing any
envelope. -/
def dispatch_method (c : AsyncClient) (payload : JsonRequest) : Option JsonResponse :=
  match dispatch_result c payload.method with
  | Outcome.ok v => some (JsonResponse.new payload.id v)
  | Outcome.err e => some (JsonResponse.mk_error payload.id e)
  | Outcome.panic => none

/-! ## Concrete fixtures

A small concrete backend and concrete requests, used to evaluate the
theorems below on closed inputs. -/

/-- The number of records in the `transactions` field of a block-transactions
result. -/
def transactions_length : Outcome → Option Nat
  | Outcome.ok (Value.obj fields) =>
    match getField fields "transactions" with
    | some (Value.arr l) => some l.length
    | _ => none
  | _ => none

def txA : ShortTxId := { account := "QQ==", hash := "h1", lt := "1", mode := 0 }

def txB : ShortTxId := { account := "Qg==", hash := "h2", lt := "2", mode := 1 }

def txBad : ShortTxId := { account := "%", hash := "h3", lt := "3", mode := 0 }

def rawTx (l : String) : RawTransaction := { transaction_id := { lt := l, hash := "x" } }

def blockValueEx : Value :=
  Value.obj [("workchain", Value.num 0), ("shard", Value.str "1"),
    ("seqno", Value.num 7), ("root_hash", Value.str "rh"), ("file_hash", Value.str "fh")]

def blockEx : BlockIdExt :=
  { workchain := 0, shard := 1, seqno := 7, root_hash := "rh", file_hash := "fh" }

def clientEx : AsyncClient :=
  { get_masterchain_info := Except.ok (Value.str "mc")
    look_up_block_by_seqno := fun _ _ _ => Except.ok blockValueEx
    look_up_block_by_lt := fun _ _ _ => Except.ok (Value.str "bylt")
    get_shards := fun _ => Except.ok Value.null
    get_block_header := fun _ _ _ => Except.ok Value.null
    get_tx_stream := fun _ => [txA, txB]
    raw_get_account_state := fun _ => Except.ok Value.null
    get_account_state := fun _ => Except.ok Value.null
    get_account_tx_stream := fun _ => [rawTx "100", rawTx "60", rawTx "50", rawTx "40"]
    get_account_tx_stream_from := fun _ _ => [rawTx "9", rawTx "8", rawTx "7"]
    send_message := fun _ => Except.ok Value.null }

def clientBad : AsyncClient := { clientEx with get_tx_stream := fun _ => [txA, txBad] }

def pBT : BlockTransactionsParams :=
  { workchain := 0, shard := "1", seqno := 7, root_hash := none, file_hash := none,
    after_lt := none, after_hash := none, count := some 1 }

def pTxToLt : TransactionsParams :=
  { address := "a", limit := none, lt := none, hash := none, to_lt := some "50",
    archival := none }

def pTxBad : TransactionsParams :=
  { address := "a", limit := none, lt := none, hash := none, to_lt := some "abc",
    archival := none }

def pTxCursor : TransactionsParams :=
  { address := "a", limit := some 2, lt := some "5", hash := some "hh", to_lt := none,
    archival := none }

def pLB (s : Option Nat) (l : Option Int) (u : Option Nat) : LookupBlockParams :=
  { workchain := 0, shard := "1", seqno := s, lt := l, unixtime := u }

def reqEx : JsonRequest := { jsonrpc := "2.0", id := 7, method := Method.MasterchainInfo }

def respEx : JsonResponse := JsonResponse.new 7 (Value.str "mc")

def txsEx : List ShortTxId :=
  [{ account := "0:41", hash := "h1", lt := "1", mode := 0 },
   { account := "0:42", hash := "h2", lt := "2", mode := 1 }]

/-! ## Helper lemmas -/

theorem charToSextet_sextetToChar : ∀ n < 64, charToSextet (sextetToChar n) = some n := by
  decide

theorem sextetToChar_ne_pad : ∀ n < 64, ¬ (sextetToChar n = '=') := by
  decide

theorem base64Decode_base64Encode (b : List Nat) (h : ∀ x ∈ b, x < 256) :
    base64Decode (base64Encode b) = some b := by
  induction b using base64Encode.induct with
  | case1 => rfl
  | case2 b0 =>
    have hb0 : b0 < 256 := h b0 (by simp)
    have e0 := charToSextet_sextetToChar (b0 / 4) (by omega)
    have e1 := charToSextet_sextetToChar (b0 % 4 * 16) (by omega)
    have h16 : b0 % 4 * 16 % 16 = 0 := by omega
    have hval : b0 / 4 * 4 + b0 % 4 * 16 / 16 = b0 := by omega
    simp [base64Encode, base64Decode, e0, e1, h16, hval]
    omega
  | case3 b0 b1 =>
    have hb0 : b0 < 256 := h b0 (by simp)
    have hb1 : b1 < 256 := h b1 (by simp)
    have e0 := charToSextet_sextetToChar (b0 / 4) (by omega)
    have e1 := charToSextet_sextetToChar (b0 % 4 * 16 + b1 / 16) (by omega)
    have e2 := charToSextet_sextetToChar (b1 % 16 * 4) (by omega)
    have hne2 := sextetToChar_ne_pad (b1 % 16 * 4) (by omega)
    have h4 : b1 % 16 * 4 % 4 = 0 := by omega
    have hv0 : b0 / 4 * 4 + (b0 % 4 * 16 + b1 / 16) / 16 = b0 := by omega
    have hv1 : (b0 % 4 * 16 + b1 / 16) % 16 * 16 + b1 % 16 * 4 / 4 = b1 := by omega
    simp [base64Encode, base64Decode, e0, e1, e2, hne2, h4, hv0, hv1]
    omega
  | case4 b0 b1 b2 rest ih =>
    have hb0 : b0 < 256 := h b0 (by simp)
    have hb1 : b1 < 256 := h b1 (by simp)
    have hb2 : b2 < 256 := h b2 (by simp)
    have ih2 := ih (fun x hx => h x (by simp [hx]))
    have e0 := charToSextet_sextetToChar (b0 / 4) (by omega)
    have e1 := charToSextet_sextetToChar (b0 % 4 * 16 + b1 / 16) (by omega)
    have e2 := charToSextet_sextetToChar (b1 % 16 * 4 + b2 / 64) (by omega)
    have e3 := charToSextet_sextetToChar (b2 % 64) (by omega)
    have hne2 := sextetToChar_ne_pad (b1 % 16 * 4 + b2 / 64) (by omega)
    have hne3 := sextetToChar_ne_pad (b2 % 64) (by omega)
    have hv0 : b0 / 4 * 4 + (b0 % 4 * 16 + b1 / 16) / 16 = b0 := by omega
    have hv1 : (b0 % 4 * 16 + b1 / 16) % 16 * 16 + (b1 % 16 * 4 + b2 / 64) / 4 = b1 := by
      omega
    have hv2 : (b1 % 16 * 4 + b2 / 64) % 4 * 64 + b2 % 64 = b2 := by omega
    simp [base64Encode, base64Decode, e0, e1, e2, e3, hne2, hne3, ih2, hv0, hv1, hv2]


theorem map_accounts_some (wc : Int) (l : List ShortTxId)
    (h : ∀ tx ∈ l, (base64_to_hex tx.account).isSome) :
    ∃ out, map_accounts wc l = some out ∧ out.length = l.length ∧
      ∀ i (hi : i < out.length) (hj : i < l.length),
        (∃ hex, base64_to_hex (l.get ⟨i, hj⟩).account = some hex ∧
          (out.get ⟨i, hi⟩).account = toString wc ++ ":" ++ hex) ∧
        (out.get ⟨i, hi⟩).hash = (l.get ⟨i, hj⟩).hash ∧
        (out.get ⟨i, hi⟩).lt = (l.get ⟨i, hj⟩).lt ∧
        (out.get ⟨i, hi⟩).mode = (l.get ⟨i, hj⟩).mode := by
  induction l with
  | nil => exact ⟨[], rfl, rfl, fun i hi hj => absurd hj (by simp)⟩
  | cons tx rest ih =>
    have htx := h tx (by simp)
    obtain ⟨hex, hhex⟩ := Option.isSome_iff_exists.mp htx
    obtain ⟨out, ho, hlen, hpt⟩ := ih (fun t ht => h t (by simp [ht]))
    refine ⟨{ account := toString wc ++ ":" ++ hex, hash := tx.hash,
              lt := tx.lt, mode := tx.mode } :: out, ?_, by simp [hlen], ?_⟩
    · simp [map_accounts, hhex, ho]
    · intro i hi hj
      match i with
      | 0 => exact ⟨⟨hex, hhex, rfl⟩, rfl, rfl, rfl⟩
      | Nat.succ k =>
        have hi2 : k < out.length := by simpa using hi
        have hj2 : k < rest.length := by simpa using hj
        exact hpt k hi2 hj2

theorem map_accounts_eq_none (wc : Int) (l : List ShortTxId)
    (h : ∃ tx ∈ l, base64_to_hex tx.account = none) :
    map_accounts wc l = none := by
  induction l with
  | nil => simp at h
  | cons tx rest ih =>
    obtain ⟨t, ht, hnone⟩ := h
    rcases List.mem_cons.mp ht with rfl | hmem
    · simp [map_accounts, hnone]
    · cases hb : base64_to_hex tx.account with
      | none => simp [map_accounts, hb]
      | some hex => simp [map_accounts, hb, ih ⟨t, hmem, hnone⟩]

theorem take_while_take_spec (to_lt : Int) (l : List RawTransaction) :
    ∀ (n : Nat), (∀ tx ∈ l, ∃ v, parse_i64 tx.transaction_id.lt = Except.ok v) →
      ∃ out, take_while_take to_lt n l = some out ∧
        out <+: l ∧
        out.length ≤ n ∧
        (∀ tx ∈ out, ∀ v, parse_i64 tx.transaction_id.lt = Except.ok v → v > to_lt) ∧
        (out.length < n → ∀ tx, l.get? out.length = some tx →
          ∀ v, parse_i64 tx.transaction_id.lt = Except.ok v → v ≤ to_lt) := by
  induction l with
  | nil =>
    intro n h
    refine ⟨[], ?_, List.nil_prefix, by simp, by simp, ?_⟩
    · cases n <;> rfl
    · intro _ tx htx; simp at htx
  | cons tx rest ih =>
    intro n h
    match n with
    | 0 =>
      refine ⟨[], rfl, List.nil_prefix, by simp, by simp, ?_⟩
      intro h0; omega
    | Nat.succ m =>
      obtain ⟨v, hv⟩ := h tx (by simp)
      by_cases hgt : v > to_lt
      · obtain ⟨out, ho, hpre, hlen, hall, hmax⟩ := ih m (fun t ht => h t (by simp [ht]))
        obtain ⟨t2, ht2⟩ := hpre
        refine ⟨tx :: out, ?_, ⟨t2, by simp [ht2]⟩, by simpa using hlen, ?_, ?_⟩
        · simp [take_while_take, hv, hgt, ho]
        · intro t htmem w hw
          rcases List.mem_cons.mp htmem with rfl | hm
          · rw [hv] at hw; injection hw with hw; omega
          · exact hall t hm w hw
        · intro hlt t hget w hw
          have hlt2 : out.length < m := by simpa using hlt
          have hget2 : rest.get? out.length = some t := by simpa using hget
          exact hmax hlt2 t hget2 w hw
      · refine ⟨[], ?_, List.nil_prefix, by simp, by simp, ?_⟩
        · simp [take_while_take, hv, hgt]
        · intro _ t hget w hw
          have : tx = t := by simpa using hget
          subst this
          rw [hv] at hw; injection hw with hw; omega

theorem map_accounts_length (wc : Int) (l : List ShortTxId) :
    ∀ out, map_accounts wc l = some out → out.length = l.length := by
  induction l with
  | nil =>
    intro out h
    injection h with h
    simp [← h]
  | cons tx rest ih =>
    intro out h
    unfold map_accounts at h
    rcases hb : base64_to_hex tx.account with _ | hex
    · rw [hb] at h; simp at h
    · rw [hb] at h
      rcases hm : map_accounts wc rest with _ | out2
      · rw [hm] at h; simp at h
      · rw [hm] at h
        injection h with h
        simp [← h, ih out2 hm]


/-! ## The claims -/


/-- Claim C7: for every byte sequence, `base64_to_hex` applied to its
standard-base64 encoding returns its lowercase hexadecimal encoding; every
string that is not valid base64 is rejected with an error. -/
theorem base64_to_hex_spec :
    (∀ b : List Nat, (∀ x ∈ b, x < 256) →
      base64_to_hex (String.mk (base64Encode b)) = some (String.mk (hexEncode b)))
    ∧ (∀ s : String, base64Decode s.toList = none → base64_to_hex s = none) := by
  constructor
  · intro b h
    unfold base64_to_hex
    rw [show (String.mk (base64Encode b)).toList = base64Encode b from rfl]
    rw [base64Decode_base64Encode b h]
    rfl
  · intro s h
    have h2 : base64Decode s.data = none := h
    simp [base64_to_hex, h2]

theorem base64_to_hex_spec_witness :
    base64_to_hex "TWFu" = some "4d616e" ∧ base64_to_hex "%" = none := by
  constructor
  · exact base64_to_hex_spec.1 [77, 97, 110] (by decide)
  · exact base64_to_hex_spec.2 "%" rfl

/-- Claim C2: `lookup_block` with a parsable shard routes an exactly-seqno
request (seqno positive) to the seqno lookup, an exactly-lt request (lt
positive) to the lt lookup, an exactly-unixtime request to the unsupported
error, and every other combination to the validation error, for every
backend client (so no backend lookup is involved in the failures). -/
theorem lookup_block_routing (c : AsyncClient) (p : LookupBlockParams) (shard : Int)
    (hsh : parse_i64 p.shard = Except.ok shard) :
    (∀ n, 0 < n → p.seqno = some n → p.lt = none → p.unixtime = none →
      lookup_block c p = Outcome.ofExcept (c.look_up_block_by_seqno p.workchain shard n))
    ∧ (∀ l, 0 < l → p.lt = some l → p.seqno = none → p.unixtime = none →
      lookup_block c p = Outcome.ofExcept (c.look_up_block_by_lt p.workchain shard l))
    ∧ (∀ u, p.unixtime = some u → p.seqno = none → p.lt = none →
      lookup_block c p = Outcome.err "unixtime is not supported")
    ∧ ((¬ ∃ n, 0 < n ∧ p.seqno = some n ∧ p.lt = none ∧ p.unixtime = none) →
       (¬ ∃ l, 0 < l ∧ p.lt = some l ∧ p.seqno = none ∧ p.unixtime = none) →
       (¬ ∃ u, p.unixtime = some u ∧ p.seqno = none ∧ p.lt = none) →
      lookup_block c p = Outcome.err "seqno or lt or unixtime must be provided") := by
  refine ⟨?_, ?_, ?_, ?_⟩
  · intro n hn hs hl hu
    simp [lookup_block, hsh, hs, hl, hu, hn]
  · intro l hl0 hl hs hu
    simp [lookup_block, hsh, hs, hl, hu, hl0]
  · intro u hu hs hl
    simp [lookup_block, hsh, hs, hl, hu]
  · intro h1 h2 h3
    rcases hs : p.seqno with _ | n
    · rcases hl : p.lt with _ | l
      · rcases hu : p.unixtime with _ | u
        · simp [lookup_block, hsh, hs, hl, hu]
        · exact absurd ⟨u, hu, hs, hl⟩ h3
      · rcases hu : p.unixtime with _ | u
        · have hl0 : ¬ 0 < l := fun hpos => h2 ⟨l, hpos, hl, hs, hu⟩
          simp [lookup_block, hsh, hs, hl, hu, hl0]
        · simp [lookup_block, hsh, hs, hl, hu]
    · rcases hl : p.lt with _ | l
      · rcases hu : p.unixtime with _ | u
        · have hn : ¬ 0 < n := fun hpos => h1 ⟨n, hpos, hs, hl, hu⟩
          simp [lookup_block, hsh, hs, hl, hu, hn]
        · simp [lookup_block, hsh, hs, hl, hu]
      · simp [lookup_block, hsh, hs, hl]

theorem lookup_block_routing_witness :
    lookup_block clientEx (pLB (some 5) none none)
      = Outcome.ofExcept (clientEx.look_up_block_by_seqno 0 1 5) :=
  (lookup_block_routing clientEx (pLB (some 5) none none) 1 rfl).1 5 (by omega) rfl rfl rfl

/-- Claim C4: every envelope the dispatcher produces echoes the request's id
verbatim, `ok` is true exactly when `result` is present and `error` absent
(false exactly when `error` is present and `result` absent), and the
envelope is one of the two constructor shapes. -/
theorem dispatch_method_envelope (c : AsyncClient) (payload : JsonRequest)
    (resp : JsonResponse) (h : dispatch_method c payload = some resp) :
    resp.id = payload.id
    ∧ (resp.ok = true ↔ (resp.result.isSome = true ∧ resp.error = none))
    ∧ (resp.ok = false ↔ (resp.error.isSome = true ∧ resp.result = none))
    ∧ ((∃ v, resp = JsonResponse.new payload.id v)
        ∨ (∃ e, resp = JsonResponse.mk_error payload.id e)) := by
  unfold dispatch_method at h
  cases hr : dispatch_result c payload.method with
  | ok v =>
    rw [hr] at h
    injection h with h
    subst h
    exact ⟨rfl, by simp [JsonResponse.new], by simp [JsonResponse.new], Or.inl ⟨_, rfl⟩⟩
  | err e =>
    rw [hr] at h
    injection h with h
    subst h
    exact ⟨rfl, by simp [JsonResponse.mk_error], by simp [JsonResponse.mk_error],
      Or.inr ⟨_, rfl⟩⟩
  | panic =>
    rw [hr] at h
    simp at h

theorem dispatch_method_envelope_witness :
    respEx.id = reqEx.id
    ∧ (respEx.ok = true ↔ (respEx.result.isSome = true ∧ respEx.error = none))
    ∧ (respEx.ok = false ↔ (respEx.error.isSome = true ∧ respEx.result = none))
    ∧ ((∃ v, respEx = JsonResponse.new reqEx.id v)
        ∨ (∃ e, respEx = JsonResponse.mk_error reqEx.id e)) :=
  dispatch_method_envelope clientEx reqEx respEx rfl

/-- Claim C8: `get_transactions` consumes the cursor-started backend stream
exactly when both `lt` and `hash` are present, and the account's from-latest
stream in every other case. -/
theorem get_transactions_stream_selection (c : AsyncClient) (p : TransactionsParams) :
    (∀ l h, p.lt = some l → p.hash = some h →
      selected_stream c p = c.get_account_tx_stream_from p.address { lt := l, hash := h })
    ∧ ((p.lt = none ∨ p.hash = none) →
      selected_stream c p = c.get_account_tx_stream p.address) := by
  constructor
  · intro l h hl hh
    simp [selected_stream, hl, hh]
  · intro h
    rcases h with h | h
    · rcases hh : p.hash with _ | hv <;> simp [selected_stream, h, hh]
    · rcases hl : p.lt with _ | lv <;> simp [selected_stream, hl, h]

theorem get_transactions_stream_selection_witness :
    selected_stream clientEx pTxCursor
      = clientEx.get_account_tx_stream_from "a" { lt := "5", hash := "hh" } :=
  (get_transactions_stream_selection clientEx pTxCursor).1 "5" "hh" rfl rfl

/-- Claim C10: a present but unparsable `to_lt` does not fail the request:
it is silently treated as absent, no stop condition applies, and the result
is the first `limit` (default 10) transactions of the selected stream. -/
theorem get_transactions_to_lt_unparsable (c : AsyncClient) (p : TransactionsParams)
    (s : String) (e : String) (h1 : p.to_lt = some s)
    (h2 : parse_i64 s = Except.error e) :
    get_transactions_list c p = some ((selected_stream c p).take (p.limit.getD 10)) := by
  simp [get_transactions_list, h1, h2, Except.toOption]

theorem get_transactions_to_lt_unparsable_witness :
    get_transactions_list clientEx pTxBad
      = some ((selected_stream clientEx pTxBad).take (pTxBad.limit.getD 10)) :=
  get_transactions_to_lt_unparsable clientEx pTxBad "abc" "invalid digit found in string"
    rfl rfl


/-- Claim C3: with a present, parsable `to_lt`, the result is the longest
prefix of the source stream whose members' logical times are all strictly
greater than `to_lt`, truncated to at most `limit` (default 10) items, in
source order: a prefix of the stream, within the cap, every member passing
the strict bound, and — when the cap is not what ended it — the next stream
item (if any) failing the bound, so nothing beyond it is ever pulled. -/
theorem get_transactions_to_lt_prefix (c : AsyncClient) (p : TransactionsParams)
    (s : String) (to_lt : Int) (h1 : p.to_lt = some s)
    (h2 : parse_i64 s = Except.ok to_lt)
    (h3 : ∀ tx ∈ selected_stream c p, ∃ v, parse_i64 tx.transaction_id.lt = Except.ok v) :
    ∃ out, get_transactions_list c p = some out
      ∧ out <+: selected_stream c p
      ∧ out.length ≤ p.limit.getD 10
      ∧ (∀ tx ∈ out, ∀ v, parse_i64 tx.transaction_id.lt = Except.ok v → v > to_lt)
      ∧ (out.length < p.limit.getD 10 →
          ∀ tx, (selected_stream c p).get? out.length = some tx →
            ∀ v, parse_i64 tx.transaction_id.lt = Except.ok v → v ≤ to_lt) := by
  obtain ⟨out, ho, hrest⟩ :=
    take_while_take_spec to_lt (selected_stream c p) (p.limit.getD 10) h3
  exact ⟨out, by simp [get_transactions_list, h1, h2, Except.toOption, ho], hrest⟩

theorem get_transactions_to_lt_prefix_witness :
    ∃ out, get_transactions_list clientEx pTxToLt = some out
      ∧ out <+: selected_stream clientEx pTxToLt
      ∧ out.length ≤ pTxToLt.limit.getD 10
      ∧ (∀ tx ∈ out, ∀ v, parse_i64 tx.transaction_id.lt = Except.ok v → v > 50)
      ∧ (out.length < pTxToLt.limit.getD 10 →
          ∀ tx, (selected_stream clientEx pTxToLt).get? out.length = some tx →
            ∀ v, parse_i64 tx.transaction_id.lt = Except.ok v → v ≤ 50) :=
  get_transactions_to_lt_prefix clientEx pTxToLt "50" 50 rfl rfl (by
    have hs : selected_stream clientEx pTxToLt
        = [rawTx "100", rawTx "60", rawTx "50", rawTx "40"] := rfl
    rw [hs]
    intro tx htx
    fin_cases htx
    · exact ⟨100, rfl⟩
    · exact ⟨60, rfl⟩
    · exact ⟨50, rfl⟩
    · exact ⟨40, rfl⟩)

/-- Claim C1 counterexample: with `count = 1` and a two-item block stream,
`get_block_transactions` returns 2 transactions — the cap of the claim is
never applied. -/
theorem get_block_transactions_cap_cex :
    pBT.count = some 1
    ∧ transactions_length (get_block_transactions clientEx pBT) = some 2
    ∧ ¬ (2 ≤ 1) :=
  ⟨rfl, rfl, by omega⟩

/-- Claim C1 (amended): `count` defaults to 200 but is only echoed back as
`req_count`; the transactions list contains every item of the block's
transaction stream, whatever `count` is. -/
theorem get_block_transactions_no_cap (c : AsyncClient) (p : BlockTransactionsParams)
    (shard : Int) (bj : Value) (block : BlockIdExt) (txs : List ShortTxId)
    (h1 : parse_i64 p.shard = Except.ok shard)
    (h2 : c.look_up_block_by_seqno p.workchain shard p.seqno = Except.ok bj)
    (h3 : from_value_block_id_ext bj = Except.ok block)
    (h4 : map_accounts block.workchain (c.get_tx_stream block) = some txs) :
    get_block_transactions c p
      = Outcome.ok (Value.obj [("@type", Value.str "blocks.transactions"),
          ("id", block.toValue), ("incomplete", Value.bool false),
          ("req_count", Value.num ((p.count.getD 200 : Nat) : Int)),
          ("transactions", Value.arr (txs.map ShortTxId.toValue))])
    ∧ txs.length = (c.get_tx_stream block).length := by
  constructor
  · simp [get_block_transactions, h1, h2, h3, h4]
  · exact map_accounts_length block.workchain (c.get_tx_stream block) txs h4

theorem get_block_transactions_no_cap_witness :
    get_block_transactions clientEx pBT
      = Outcome.ok (Value.obj [("@type", Value.str "blocks.transactions"),
          ("id", blockEx.toValue), ("incomplete", Value.bool false),
          ("req_count", Value.num ((pBT.count.getD 200 : Nat) : Int)),
          ("transactions", Value.arr (txsEx.map ShortTxId.toValue))])
    ∧ txsEx.length = (clientEx.get_tx_stream blockEx).length :=
  get_block_transactions_no_cap clientEx pBT 1 blockValueEx blockEx txsEx rfl rfl rfl rfl

/-- Claim C6: each record emitted by `get_block_transactions` has its
`account` rewritten to `"<workchain>:<hex>"`, `<hex>` being the codec's
output on the backend's original account and `<workchain>` the resolved
block's workchain; `hash`, `lt` and `mode` pass through unchanged. -/
theorem get_block_transactions_account_rewrite (c : AsyncClient)
    (p : BlockTransactionsParams) (shard : Int) (bj : Value) (block : BlockIdExt)
    (h1 : parse_i64 p.shard = Except.ok shard)
    (h2 : c.look_up_block_by_seqno p.workchain shard p.seqno = Except.ok bj)
    (h3 : from_value_block_id_ext bj = Except.ok block)
    (h4 : ∀ tx ∈ c.get_tx_stream block, (base64_to_hex tx.account).isSome = true) :
    ∃ txs, map_accounts block.workchain (c.get_tx_stream block) = some txs
      ∧ get_block_transactions c p
          = Outcome.ok (Value.obj [("@type", Value.str "blocks.transactions"),
              ("id", block.toValue), ("incomplete", Value.bool false),
              ("req_count", Value.num ((p.count.getD 200 : Nat) : Int)),
              ("transactions", Value.arr (txs.map ShortTxId.toValue))])
      ∧ txs.length = (c.get_tx_stream block).length
      ∧ ∀ i (hi : i < txs.length) (hj : i < (c.get_tx_stream block).length),
          (∃ hex, base64_to_hex ((c.get_tx_stream block).get ⟨i, hj⟩).account = some hex ∧
            (txs.get ⟨i, hi⟩).account = toString block.workchain ++ ":" ++ hex)
          ∧ (txs.get ⟨i, hi⟩).hash = ((c.get_tx_stream block).get ⟨i, hj⟩).hash
          ∧ (txs.get ⟨i, hi⟩).lt = ((c.get_tx_stream block).get ⟨i, hj⟩).lt
          ∧ (txs.get ⟨i, hi⟩).mode = ((c.get_tx_stream block).get ⟨i, hj⟩).mode := by
  obtain ⟨txs, ho, hlen, hpt⟩ := map_accounts_some block.workchain (c.get_tx_stream block) h4
  exact ⟨txs, ho, by simp [get_block_transactions, h1, h2, h3, ho], hlen, hpt⟩

theorem get_block_transactions_account_rewrite_witness :
    ∃ txs, map_accounts blockEx.workchain (clientEx.get_tx_stream blockEx) = some txs
      ∧ get_block_transactions clientEx pBT
          = Outcome.ok (Value.obj [("@type", Value.str "blocks.transactions"),
              ("id", blockEx.toValue), ("incomplete", Value.bool false),
              ("req_count", Value.num ((pBT.count.getD 200 : Nat) : Int)),
              ("transactions", Value.arr (txs.map ShortTxId.toValue))])
      ∧ txs.length = (clientEx.get_tx_stream blockEx).length
      ∧ ∀ i (hi : i < txs.length) (hj : i < (clientEx.get_tx_stream blockEx).length),
          (∃ hex, base64_to_hex ((clientEx.get_tx_stream blockEx).get ⟨i, hj⟩).account
              = some hex ∧
            (txs.get ⟨i, hi⟩).account = toString blockEx.workchain ++ ":" ++ hex)
          ∧ (txs.get ⟨i, hi⟩).hash = ((clientEx.get_tx_stream blockEx).get ⟨i, hj⟩).hash
          ∧ (txs.get ⟨i, hi⟩).lt = ((clientEx.get_tx_stream blockEx).get ⟨i, hj⟩).lt
          ∧ (txs.get ⟨i, hi⟩).mode = ((clientEx.get_tx_stream blockEx).get ⟨i, hj⟩).mode :=
  get_block_transactions_account_rewrite clientEx pBT 1 blockValueEx blockEx
    rfl rfl rfl (by decide)

/-- Claim C9: the per-item transform unwraps `base64_to_hex`: when every
stream account is valid base64 the failure branch is unreachable and the
handler succeeds, and when any stream account is invalid base64 the handler
panics — and the dispatcher then produces no envelope at all — instead of
returning an `ok:false` error envelope. -/
theorem get_block_transactions_unwrap_panic (c : AsyncClient)
    (p : BlockTransactionsParams) (shard : Int) (bj : Value) (block : BlockIdExt)
    (h1 : parse_i64 p.shard = Except.ok shard)
    (h2 : c.look_up_block_by_seqno p.workchain shard p.seqno = Except.ok bj)
    (h3 : from_value_block_id_ext bj = Except.ok block) :
    ((∀ tx ∈ c.get_tx_stream block, (base64_to_hex tx.account).isSome = true) →
      ∃ v, get_block_transactions c p = Outcome.ok v)
    ∧ ((∃ tx ∈ c.get_tx_stream block, base64_to_hex tx.account = none) →
      get_block_transactions c p = Outcome.panic
      ∧ ∀ (jr : String) (id : Nat),
        dispatch_method c
          { jsonrpc := jr, id := id, method := Method.BlockTransactions p } = none) := by
  constructor
  · intro h4
    obtain ⟨txs, ho, _, _⟩ := map_accounts_some block.workchain (c.get_tx_stream block) h4
    refine ⟨Value.obj [("@type", Value.str "blocks.transactions"), ("id", block.toValue),
      ("incomplete", Value.bool false),
      ("req_count", Value.num ((p.count.getD 200 : Nat) : Int)),
      ("transactions", Value.arr (txs.map ShortTxId.toValue))], ?_⟩
    simp [get_block_transactions, h1, h2, h3, ho]
  · intro hbad
    have hnone := map_accounts_eq_none block.workchain (c.get_tx_stream block) hbad
    have hp : get_block_transactions c p = Outcome.panic := by
      simp [get_block_transactions, h1, h2, h3, hnone]
    exact ⟨hp, fun jr id => by simp [dispatch_method, dispatch_result, hp]⟩

theorem get_block_transactions_unwrap_panic_witness :
    (∃ v, get_block_transactions clientEx pBT = Outcome.ok v)
    ∧ (get_block_transactions clientBad pBT = Outcome.panic
      ∧ dispatch_method clientBad
          { jsonrpc := "2.0", id := 9, method := Method.BlockTransactions pBT } = none) := by
  constructor
  · exact (get_block_transactions_unwrap_panic clientEx pBT 1 blockValueEx blockEx
      rfl rfl rfl).1 (by decide)
  · have h := (get_block_transactions_unwrap_panic clientBad pBT 1 blockValueEx blockEx
      rfl rfl rfl).2 ⟨txBad, by decide, rfl⟩
    exact ⟨h.1, h.2 "2.0" 9⟩

end TonRpc
